import Mathlib

set_option maxHeartbeats 1000000

/-! Verification development for the tuna CLI core (`leptonai/cli/tuna.py`):
a shallow embedding of the naming engine and of the model-state aggregator,
over an explicit snapshot of the remote inventory, together with proofs of the
specified naming and aggregation properties. -/

/-- Python strings are modelled as lists of characters. -/
abbrev Str := List Char

/-- Modelled from the spec: the constant `TUNA_DEPLOYMENT_NAME_PREFIX` from
`leptonai/config.py` (not under `src/`); the spec scenario "deployment
`tuna-alpha-0` for model `alpha`" fixes its value to `"tuna-"`. -/
def TUNA_DEPLOYMENT_NAME_PFX : Str := "tuna-".toList

/-- Modelled from the spec: the constant `TUNA_TRAIN_JOB_NAME_PREFIX` from
`leptonai/config.py` (not under `src/`); the spec scenario "job
`train-job-alpha` for model `alpha`" fixes its value to `"train-job-"`. -/
def TUNA_TRAIN_JOB_NAME_PFX : Str := "train-job-".toList

/-- Modelled from the spec: the tuna root folder constant `DEFAULT_TUNA_FOLDER`
(value not under `src/`; only its identity matters to the aggregator guards). -/
def DEFAULT_TUNA_FOLDER : Str := "/tuna".toList

/-- Modelled from the spec: the models root constant `DEFAULT_TUNA_MODEL_PATH`
(value not under `src/`). -/
def DEFAULT_TUNA_MODEL_PATH : Str := "/tuna/models".toList

/-- Modelled from the spec: job status values (`LeptonJobState` lives outside
`src/`). Aggregation only distinguishes Running, Starting and Failed; every
other status is ignored, represented here by Completed and Unknown. -/
inductive LeptonJobState where
  | Running
  | Starting
  | Failed
  | Completed
  | Unknown
deriving DecidableEq

/-- Modelled from the spec: deployment status values (`LeptonDeploymentState`
lives outside `src/`). Ready, Starting and Updating count as running; every
other status is non-running, represented here by Stopped, NotReady and
Unknown. -/
inductive LeptonDeploymentState where
  | Ready
  | Starting
  | Updating
  | Stopped
  | NotReady
  | Unknown
deriving DecidableEq

/-- Modelled from the spec: `LeptonDeploymentState` is a str-enum whose value
is interpolated into the `"<name> (<status>)"` deployment strings. -/
def deploymentStateStr : LeptonDeploymentState → Str
  | .Ready => "Ready".toList
  | .Starting => "Starting".toList
  | .Updating => "Updating".toList
  | .Stopped => "Stopped".toList
  | .NotReady => "Not Ready".toList
  | .Unknown => "Unknown".toList

/-- The aggregate per-model state `TunaModelState` (tuna.py lines 45-51). -/
inductive TunaModelState where
  | Training
  | Ready
  | Running
  | TrainFailed
  | Stopped
  | Unknown
deriving DecidableEq

/-- The record `TunaModel` (tuna.py lines 54-58): a pydantic model whose
`deployments` and `job_name` fields default to `None`. -/
structure TunaModel where
  folder_name : Str
  tuna_model_state : TunaModelState
  deployments : Option (List Str) := none
  job_name : Option Str := none
deriving DecidableEq

/-- One entry of a storage directory listing, as consumed by
`_get_model_names` (fields `name` and `type`). -/
structure DirInfo where
  name : Str
  type : Str
deriving DecidableEq

/-- One job from `client.job.list_all()`: its `metadata.name` and
`status.state`. -/
structure LeptonJob where
  name : Str
  state : LeptonJobState
deriving DecidableEq

/-- One deployment from `client.deployment.list_all()`: its `metadata.name`
and `status.state`. -/
structure LeptonDeployment where
  name : Str
  state : LeptonDeploymentState
deriving DecidableEq

/-- Snapshot of the remote inventory behind `APIClient`: storage existence
checks, directory listings, the job inventory and the deployment inventory. -/
structure APIClient where
  storage_check_exists : Str → Bool
  storage_get_dir : Str → List DirInfo
  jobs : List LeptonJob
  deployments : List LeptonDeployment

/-- Decimal digit characters, as produced by Python `str` on a digit. -/
def digitChar (d : Nat) : Char :=
  if d = 0 then '0'
  else if d = 1 then '1'
  else if d = 2 then '2'
  else if d = 3 then '3'
  else if d = 4 then '4'
  else if d = 5 then '5'
  else if d = 6 then '6'
  else if d = 7 then '7'
  else if d = 8 then '8'
  else '9'

/-- Fuel-indexed helper for `pyStr`: structural recursion on the fuel so that
the definition reduces inside the kernel. The fuel is never exhausted when it
exceeds the argument. -/
def pyStrAux : Nat → Nat → Str
  | 0, _ => []
  | fuel + 1, n =>
    if n < 10 then [digitChar n]
    else pyStrAux fuel (n / 10) ++ [digitChar (n % 10)]

/-- Python `str(n)` for a natural number: decimal representation without
leading zeros. -/
def pyStr (n : Nat) : Str := pyStrAux (n + 1) n

/-- The info-file name `model_name + "_info.json"` (tuna.py lines 82-83). -/
def _generate_info_file_name (model_name : Str) : Str :=
  model_name ++ "_info.json".toList

/-- The model output path (tuna.py lines 86-87). -/
def _generate_model_output_path (model_name : Str) : Str :=
  DEFAULT_TUNA_MODEL_PATH ++ "/".toList ++ model_name

/-- The deterministic job name (tuna.py lines 90-91): job-name preamble
concatenated with the model name. -/
def _generate_job_name (model_name : Str) : Str :=
  TUNA_TRAIN_JOB_NAME_PFX ++ model_name

/-- One deterministic candidate (tuna.py line 140):
`f"{base_name[:36 - (len(str(counter)) + 1)]}-{counter}"`. -/
def deploymentCandidateName (base_name : Str) (counter : Nat) : Str :=
  base_name.take (36 - ((pyStr counter).length + 1)) ++ '-' :: pyStr counter

/-- The counter loop of `_generate_model_deployment_name` (tuna.py lines
138-143): tries `fuel` successive counters starting at `counter`, returning
the first candidate absent from the existing-name set, and `none` when all of
them collide. -/
def findDeploymentName (base_name : Str) (existing : List Str) :
    Nat → Nat → Option Str
  | 0, _ => none
  | fuel + 1, counter =>
    let new_name := deploymentCandidateName base_name counter
    if new_name ∈ existing then findDeploymentName base_name existing fuel (counter + 1)
    else some new_name

/-- The function `_generate_model_deployment_name` (tuna.py lines 125-145).
The deployment inventory is passed as the list of existing names, and the
`random.choices(string.ascii_letters + string.digits, k=4)` draw is injected
as the `rand` argument, so the embedding is a pure function. -/
def _generate_model_deployment_name (existing : List Str) (model_name : Str)
    (rand : Str) : Str :=
  let base_name := TUNA_DEPLOYMENT_NAME_PFX ++ model_name
  match findDeploymentName base_name existing 999 0 with
  | some new_name => new_name
  | none => (TUNA_DEPLOYMENT_NAME_PFX ++ model_name).take 32 ++ rand

/-- Whether `s` starts with `p` (helper for the Python substring test). -/
def startsWithStr : Str → Str → Bool
  | _, [] => true
  | [], _ :: _ => false
  | a :: s, b :: p => decide (a = b) && startsWithStr s p

/-- Python substring containment `p in s` (used at tuna.py line 160). -/
def containsStr : Str → Str → Bool
  | [], p => startsWithStr [] p
  | a :: t, p => startsWithStr (a :: t) p || containsStr t p

/-- Python `name[: name.rindex("-")]` (tuna.py line 164): everything before
the last dash. `rindex` raises when no dash is present, but every name that
reaches this point contains `TUNA_DEPLOYMENT_NAME_PREFIX`, which itself
contains a dash (lemma `containsStr_dash` below), so this total function
agrees with the source on all reachable inputs. -/
def takeBeforeLastDash (s : Str) : Str :=
  ((s.reverse.dropWhile (fun c => decide (c ≠ '-'))).drop 1).reverse

/-- The shortened model key extracted from a deployment name (tuna.py lines
164-166): drop the trailing `-<counter>` and the deployment-name preamble. -/
def shortenedModelName (deployment_name : Str) : Str :=
  (takeBeforeLastDash deployment_name).drop TUNA_DEPLOYMENT_NAME_PFX.length

/-- The deployment statuses that count as running (tuna.py lines 167-171). -/
def deploymentRunningStates : List LeptonDeploymentState :=
  [LeptonDeploymentState.Ready, LeptonDeploymentState.Starting,
    LeptonDeploymentState.Updating]

/-- The formatted entry `deployment_name + " (" + status + ")"` (tuna.py line
186). -/
def deploymentEntryString (d : LeptonDeployment) : Str :=
  d.name ++ " (".toList ++ deploymentStateStr d.state ++ ")".toList

/-- Lookup in an insertion-ordered association list (Python `dict` access). -/
def alistGet {α : Type} : List (Str × α) → Str → Option α
  | [], _ => none
  | (k', v) :: rest, k => if k' = k then some v else alistGet rest k

/-- Update-or-append on an insertion-ordered association list (Python `dict`
assignment: overwrite in place when the key exists, append otherwise). -/
def alistSet {α : Type} : List (Str × α) → Str → α → List (Str × α)
  | [], k, v => [(k, v)]
  | (k', v') :: rest, k, v =>
    if k' = k then (k', v) :: rest else (k', v') :: alistSet rest k v

/-- The value type of the shortened-model-name deployment map: the Python list
`[state, entry₁, …]` is modelled as the pair `(state, [entry₁, …])`. -/
abbrev DeployMap := List (Str × (TunaModelState × List Str))

/-- One iteration of the loop in `_build_shortened_model_name_deployment_map`
(tuna.py lines 158-187). -/
def stepDeployment (acc : DeployMap) (d : LeptonDeployment) : DeployMap :=
  if containsStr d.name TUNA_DEPLOYMENT_NAME_PFX = false then acc
  else
    let short := shortenedModelName d.name
    let acc1 :=
      if d.state ∈ deploymentRunningStates then
        match alistGet acc short with
        | none => alistSet acc short (TunaModelState.Running, [])
        | some (_, entries) => alistSet acc short (TunaModelState.Running, entries)
      else
        match alistGet acc short with
        | none => alistSet acc short (TunaModelState.Stopped, [])
        | some _ => acc
    match alistGet acc1 short with
    | some (st, entries) =>
      alistSet acc1 short (st, entries ++ [deploymentEntryString d])
    | none => acc1

/-- The function `_build_shortened_model_name_deployment_map` (tuna.py lines
148-189), with the deployment inventory passed explicitly. -/
def _build_shortened_model_name_deployment_map
    (deployments : List LeptonDeployment) : DeployMap :=
  deployments.foldl stepDeployment []

/-- The function `_get_model_names` (tuna.py lines 192-203): names of the
`dir` entries under the models root. -/
def _get_model_names (client : APIClient) : List Str :=
  ((client.storage_get_dir DEFAULT_TUNA_MODEL_PATH).filter
    (fun di => decide (di.type = "dir".toList))).map (fun di => di.name)

/-- The function `_model_train_completed` (tuna.py lines 272-283): the model's
output directory holds more than one entry. -/
def _model_train_completed (client : APIClient) (model_name : Str) : Bool :=
  decide (1 <
    (client.storage_get_dir
      (DEFAULT_TUNA_MODEL_PATH ++ "/".toList ++ model_name)).length)

/-- The running-job name set built at tuna.py lines 221-230: jobs whose status
is Running or Starting. -/
def running_job_set (jobs : List LeptonJob) : List Str :=
  (jobs.filter (fun j =>
    decide (j.state = LeptonJobState.Running)
      || decide (j.state = LeptonJobState.Starting))).map (fun j => j.name)

/-- The failed-job name set built at tuna.py lines 231-232. -/
def failed_job_set (jobs : List LeptonJob) : List Str :=
  (jobs.filter (fun j => decide (j.state = LeptonJobState.Failed))).map
    (fun j => j.name)

/-- The aggregator-side shortening at tuna.py line 250:
`model_name[: 32 - len(TUNA_DEPLOYMENT_NAME_PREFIX)]`. -/
def curShortenModelName (model_name : Str) : Str :=
  model_name.take (32 - TUNA_DEPLOYMENT_NAME_PFX.length)

/-- The per-model record computed by the loop body of `_get_models_map`
(tuna.py lines 238-268). -/
def tunaModelFor (client : APIClient) (running failed : List Str)
    (deployment_map : DeployMap) (model_name : Str) : TunaModel :=
  let job_name := _generate_job_name model_name
  if _model_train_completed client model_name = false ∧ job_name ∉ running then
    { folder_name := model_name
      tuna_model_state := TunaModelState.TrainFailed
      job_name := if job_name ∈ failed then some job_name else none }
  else if job_name ∉ running then
    match alistGet deployment_map (curShortenModelName model_name) with
    | some (st, entries) =>
      { folder_name := model_name
        deployments := some entries
        tuna_model_state := st }
    | none =>
      { folder_name := model_name
        tuna_model_state := TunaModelState.Ready }
  else
    { folder_name := model_name
      tuna_model_state := TunaModelState.Training
      job_name := some job_name }

/-- The function `_get_models_map` (tuna.py lines 206-269), as a pure function
of the inventory snapshot. The Python dict keyed by model name is an
insertion-ordered association list. -/
def _get_models_map (client : APIClient) : List (Str × TunaModel) :=
  if client.storage_check_exists DEFAULT_TUNA_FOLDER = false then []
  else if client.storage_check_exists DEFAULT_TUNA_MODEL_PATH = false then []
  else
    let running := running_job_set client.jobs
    let failed := failed_job_set client.jobs
    let deployment_map :=
      _build_shortened_model_name_deployment_map client.deployments
    (_get_model_names client).foldl
      (fun acc model_name =>
        alistSet acc model_name
          (tunaModelFor client running failed deployment_map model_name))
      []

/-- Spec-side definition (for comparison with the source map): the deployments
of the inventory that match shortened key `k` — they contain the
deployment-name preamble and their extracted key is `k`. -/
def specMatchingDeployments (deployments : List LeptonDeployment) (k : Str) :
    List LeptonDeployment :=
  deployments.filter (fun d =>
    containsStr d.name TUNA_DEPLOYMENT_NAME_PFX
      && decide (shortenedModelName d.name = k))

/-- Spec-side definition: the aggregate state the spec prescribes for key `k` —
Running when at least one matching deployment is Ready, Starting or Updating,
Stopped otherwise. -/
def specAggState (deployments : List LeptonDeployment) (k : Str) :
    TunaModelState :=
  if (specMatchingDeployments deployments k).any
      (fun d => decide (d.state ∈ deploymentRunningStates))
  then TunaModelState.Running else TunaModelState.Stopped

/-- All 999 deterministic candidates the counter loop can try for `base_name`. -/
def detCandidates (base_name : Str) : List Str :=
  (List.range 999).map (deploymentCandidateName base_name)

/-- Concrete model name from the spec scenario for the fallback path. -/
def modelDelta : Str := "delta".toList

/-- Concrete injected randomness: four alphanumeric characters. -/
def randAAAA : Str := "aaaa".toList

/-- The fallback name the source returns for `modelDelta` and `randAAAA`. -/
def deltaFallbackName : Str :=
  (TUNA_DEPLOYMENT_NAME_PFX ++ modelDelta).take 32 ++ randAAAA

/-- An existing-name set that covers every deterministic candidate for
`modelDelta` and additionally contains the fallback name itself. -/
def badExistingSet : List Str :=
  detCandidates (TUNA_DEPLOYMENT_NAME_PFX ++ modelDelta) ++ [deltaFallbackName]

/-- A model name of 28 characters, longer than the aggregator-side shortening
limit of 27 = 32 - 5 characters. -/
def modelName28 : Str := List.replicate 28 'a'

/-- Concrete inventory snapshot: one model directory `alpha`, empty model
output directory, no jobs, no deployments. -/
def clientA : APIClient :=
  { storage_check_exists := fun _ => true
    storage_get_dir := fun p =>
      if p = DEFAULT_TUNA_MODEL_PATH then
        [{ name := "alpha".toList, type := "dir".toList }]
      else []
    jobs := []
    deployments := [] }

/-- Concrete inventory snapshot: model directory `alpha` with a running
training job `train-job-alpha`. -/
def clientB : APIClient :=
  { storage_check_exists := fun _ => true
    storage_get_dir := fun p =>
      if p = DEFAULT_TUNA_MODEL_PATH then
        [{ name := "alpha".toList, type := "dir".toList }]
      else []
    jobs := [{ name := "train-job-alpha".toList, state := LeptonJobState.Running }]
    deployments := [] }

/-- Concrete inventory snapshot whose tuna root folder does not exist. -/
def clientNoFolder : APIClient :=
  { storage_check_exists := fun _ => false
    storage_get_dir := fun _ => []
    jobs := [{ name := "train-job-alpha".toList, state := LeptonJobState.Failed }]
    deployments := [{ name := "tuna-alpha-0".toList, state := LeptonDeploymentState.Ready }] }

/-- The record produced for `alpha` under `clientB` (used by a witness). -/
def recordAlphaTraining : Str × TunaModel :=
  ("alpha".toList,
    { folder_name := "alpha".toList
      tuna_model_state := TunaModelState.Training
      deployments := none
      job_name := some ("train-job-alpha".toList) })

theorem pyStrAux_congr : ∀ (f1 f2 n : Nat), n < f1 → n < f2 →
    pyStrAux f1 n = pyStrAux f2 n := by
  intro f1
  induction f1 with
  | zero => intro f2 n h1 _; omega
  | succ f1 ih =>
    intro f2 n h1 h2
    cases f2 with
    | zero => omega
    | succ f2 =>
      simp only [pyStrAux]
      split
      · rfl
      · rw [ih f2 (n / 10) (by omega) (by omega)]

theorem pyStr_eq (n : Nat) :
    pyStr n = if n < 10 then [digitChar n]
      else pyStr (n / 10) ++ [digitChar (n % 10)] := by
  show pyStrAux (n + 1) n = _
  simp only [pyStrAux]
  split
  · rfl
  · rw [pyStrAux_congr n (n / 10 + 1) (n / 10) (by omega) (by omega)]
    rfl

theorem startsWithStr_mem : ∀ (s p : Str), startsWithStr s p = true →
    ∀ c ∈ p, c ∈ s := by
  intro s
  induction s with
  | nil =>
    intro p h c hc
    cases p with
    | nil => cases hc
    | cons b bs => simp [startsWithStr] at h
  | cons a t ih =>
    intro p h c hc
    cases p with
    | nil => cases hc
    | cons b bs =>
      simp only [startsWithStr, Bool.and_eq_true, decide_eq_true_eq] at h
      rcases List.mem_cons.mp hc with h1 | h1
      · rw [h1, ← h.1]
        exact List.mem_cons_self a t
      · exact List.mem_cons_of_mem _ (ih bs h.2 c h1)

theorem containsStr_mem : ∀ (s p : Str), containsStr s p = true →
    ∀ c ∈ p, c ∈ s := by
  intro s
  induction s with
  | nil =>
    intro p h c hc
    cases p with
    | nil => cases hc
    | cons b bs => simp [containsStr, startsWithStr] at h
  | cons a t ih =>
    intro p h c hc
    simp only [containsStr, Bool.or_eq_true] at h
    rcases h with h | h
    · exact startsWithStr_mem _ _ h c hc
    · exact List.mem_cons_of_mem _ (ih p h c hc)

theorem containsStr_dash {name : Str}
    (h : containsStr name TUNA_DEPLOYMENT_NAME_PFX = true) : '-' ∈ name :=
  containsStr_mem name TUNA_DEPLOYMENT_NAME_PFX h '-' (by decide)

theorem alistGet_alistSet_self {α : Type} (m : List (Str × α)) (k : Str) (v : α) :
    alistGet (alistSet m k v) k = some v := by
  induction m with
  | nil => simp [alistSet, alistGet]
  | cons p rest ih =>
    obtain ⟨k', v'⟩ := p
    by_cases h : k' = k
    · subst h
      simp [alistSet, alistGet]
    · simp [alistSet, alistGet, h, ih]

theorem alistGet_alistSet_ne {α : Type} (m : List (Str × α)) {k' k : Str} (v : α)
    (h : k' ≠ k) : alistGet (alistSet m k' v) k = alistGet m k := by
  induction m with
  | nil => simp [alistSet, alistGet, h]
  | cons p rest ih =>
    obtain ⟨k₀, v₀⟩ := p
    by_cases h0 : k₀ = k'
    · subst h0
      simp [alistSet, alistGet, h]
    · simp [alistSet, alistGet, h0, ih]

theorem mem_alistSet {α : Type} {m : List (Str × α)} {k : Str} {v : α}
    {p : Str × α} (h : p ∈ alistSet m k v) : p = (k, v) ∨ p ∈ m := by
  induction m with
  | nil => simpa [alistSet] using h
  | cons q rest ih =>
    obtain ⟨k₀, v₀⟩ := q
    by_cases h0 : k₀ = k
    · subst h0
      simp only [alistSet, if_pos rfl] at h
      rcases List.mem_cons.mp h with h1 | h1
      · exact Or.inl h1
      · exact Or.inr (List.mem_cons_of_mem _ h1)
    · simp only [alistSet, if_neg h0] at h
      rcases List.mem_cons.mp h with h1 | h1
      · exact Or.inr (by simp [h1])
      · rcases ih h1 with h2 | h2
        · exact Or.inl h2
        · exact Or.inr (List.mem_cons_of_mem _ h2)

theorem alistGet_foldl_set_not_mem {α : Type} (f : Str → α) (names : List Str)
    (init : List (Str × α)) {m : Str} (hm : m ∉ names) :
    alistGet (names.foldl (fun acc n => alistSet acc n (f n)) init) m =
      alistGet init m := by
  induction names generalizing init with
  | nil => rfl
  | cons n rest ih =>
    simp only [List.foldl_cons]
    have hne : n ≠ m := fun h => hm (h ▸ List.mem_cons_self n rest)
    rw [ih (alistSet init n (f n)) (fun h => hm (List.mem_cons_of_mem _ h)),
      alistGet_alistSet_ne _ _ hne]

theorem alistGet_foldl_set_mem {α : Type} (f : Str → α) (names : List Str)
    (init : List (Str × α)) {m : Str} (hm : m ∈ names) :
    alistGet (names.foldl (fun acc n => alistSet acc n (f n)) init) m =
      some (f m) := by
  induction names generalizing init with
  | nil => cases hm
  | cons n rest ih =>
    simp only [List.foldl_cons]
    by_cases hr : m ∈ rest
    · exact ih _ hr
    · have hmn : m = n := by
        rcases List.mem_cons.mp hm with h | h
        · exact h
        · exact absurd h hr
      subst hmn
      rw [alistGet_foldl_set_not_mem f rest _ hr, alistGet_alistSet_self]

theorem mem_foldl_set {α : Type} (f : Str → α) (names : List Str)
    (init : List (Str × α)) {p : Str × α}
    (h : p ∈ names.foldl (fun acc n => alistSet acc n (f n)) init) :
    p ∈ init ∨ ∃ n ∈ names, p = (n, f n) := by
  induction names generalizing init with
  | nil => exact Or.inl h
  | cons n rest ih =>
    simp only [List.foldl_cons] at h
    rcases ih _ h with h1 | h1
    · rcases mem_alistSet h1 with h2 | h2
      · exact Or.inr ⟨n, List.mem_cons_self n rest, h2⟩
      · exact Or.inl h2
    · obtain ⟨n', hn', hp⟩ := h1
      exact Or.inr ⟨n', List.mem_cons_of_mem _ hn', hp⟩

theorem pyStr_length_pos (n : Nat) : 1 ≤ (pyStr n).length := by
  rw [pyStr_eq]
  split
  · simp
  · simp only [List.length_append, List.length_cons, List.length_nil]
    omega

theorem pyStr_length_eq_one (n : Nat) (h : n < 10) : (pyStr n).length = 1 := by
  rw [pyStr_eq, if_pos h]
  rfl

theorem pyStr_length_le_two (n : Nat) (h : n < 100) : (pyStr n).length ≤ 2 := by
  rw [pyStr_eq]
  split
  · simp
  · have hd : n / 10 < 10 := by omega
    simp [List.length_append, pyStr_length_eq_one _ hd]

theorem pyStr_length_le_three (n : Nat) (h : n < 1000) : (pyStr n).length ≤ 3 := by
  rw [pyStr_eq]
  split
  · simp
  · have hd : n / 10 < 100 := by omega
    have h2 := pyStr_length_le_two _ hd
    simp only [List.length_append, List.length_cons, List.length_nil]
    omega

theorem digitChar_ne_dash (d : Nat) : digitChar d ≠ '-' := by
  unfold digitChar
  repeat' split
  all_goals decide

theorem dash_not_mem_pyStr (n : Nat) : '-' ∉ pyStr n := by
  induction n using Nat.strong_induction_on with
  | _ n ih =>
    rw [pyStr_eq]
    split
    · intro hmem
      rw [List.mem_singleton] at hmem
      exact digitChar_ne_dash n hmem.symm
    · intro hmem
      rcases List.mem_append.mp hmem with h | h
      · exact ih (n / 10) (Nat.div_lt_self (by omega) (by omega)) h
      · rw [List.mem_singleton] at h
        exact digitChar_ne_dash _ h.symm

theorem findDeploymentName_eq_none (base_name : Str) (existing : List Str)
    (fuel : Nat) :
    ∀ counter : Nat,
      (∀ j, j < fuel → deploymentCandidateName base_name (counter + j) ∈ existing) →
      findDeploymentName base_name existing fuel counter = none := by
  induction fuel with
  | zero => intro counter _; rfl
  | succ fuel ih =>
    intro counter h
    have h0 : deploymentCandidateName base_name counter ∈ existing := by
      simpa using h 0 (Nat.succ_pos _)
    rw [findDeploymentName]
    simp only [if_pos h0]
    exact ih (counter + 1) (fun j hj => by
      have hj1 := h (j + 1) (by omega)
      have harith : counter + (j + 1) = counter + 1 + j := by omega
      rwa [harith] at hj1)

theorem findDeploymentName_eq_some (base_name : Str) (existing : List Str)
    (fuel : Nat) :
    ∀ counter : Nat, ∀ {n : Str},
      findDeploymentName base_name existing fuel counter = some n →
      ∃ c, counter ≤ c ∧ c < counter + fuel ∧
        n = deploymentCandidateName base_name c ∧ n ∉ existing := by
  induction fuel with
  | zero => intro counter n h; cases h
  | succ fuel ih =>
    intro counter n h
    rw [findDeploymentName] at h
    by_cases hmem : deploymentCandidateName base_name counter ∈ existing
    · rw [if_pos hmem] at h
      obtain ⟨c, h1, h2, h3, h4⟩ := ih (counter + 1) h
      exact ⟨c, by omega, by omega, h3, h4⟩
    · rw [if_neg hmem] at h
      cases h
      exact ⟨counter, Nat.le_refl _, by omega, rfl, hmem⟩

theorem length_deploymentCandidateName_le (base_name : Str) (counter : Nat)
    (h : counter < 999) :
    (deploymentCandidateName base_name counter).length ≤ 36 := by
  have h1 := pyStr_length_pos counter
  have h3 := pyStr_length_le_three counter (by omega)
  simp only [deploymentCandidateName, List.length_append, List.length_take,
    List.length_cons]
  have hmin := Nat.min_le_left (36 - ((pyStr counter).length + 1)) base_name.length
  omega

theorem takeBeforeLastDash_append (xs ds : Str) (hds : '-' ∉ ds) :
    takeBeforeLastDash (xs ++ '-' :: ds) = xs := by
  have hpos : ∀ a ∈ ds.reverse, (fun c => decide (c ≠ '-')) a = true := by
    intro a ha
    simp only [decide_eq_true_eq]
    intro hq
    subst hq
    exact hds (List.mem_reverse.mp ha)
  unfold takeBeforeLastDash
  rw [List.reverse_append, List.reverse_cons, List.append_assoc,
    List.singleton_append, List.dropWhile_append_of_pos hpos,
    List.dropWhile_cons_of_neg (by simp), List.drop_succ_cons, List.drop_zero,
    List.reverse_reverse]

theorem alistGet_stepDeployment_ne (acc : DeployMap) (d : LeptonDeployment)
    {k : Str} (hk : shortenedModelName d.name ≠ k) :
    alistGet (stepDeployment acc d) k = alistGet acc k := by
  by_cases hc : containsStr d.name TUNA_DEPLOYMENT_NAME_PFX = false
  · simp [stepDeployment, hc]
  · by_cases hr : d.state ∈ deploymentRunningStates
    · rcases hget : alistGet acc (shortenedModelName d.name) with _ | ⟨st, es⟩
      · simp [stepDeployment, hc, hr, hget, alistGet_alistSet_self,
          alistGet_alistSet_ne _ _ hk]
      · simp [stepDeployment, hc, hr, hget, alistGet_alistSet_self,
          alistGet_alistSet_ne _ _ hk]
    · rcases hget : alistGet acc (shortenedModelName d.name) with _ | ⟨st, es⟩
      · simp [stepDeployment, hc, hr, hget, alistGet_alistSet_self,
          alistGet_alistSet_ne _ _ hk]
      · simp [stepDeployment, hc, hr, hget, alistGet_alistSet_self,
          alistGet_alistSet_ne _ _ hk]

theorem alistGet_stepDeployment_self (acc : DeployMap) (d : LeptonDeployment)
    (hc : containsStr d.name TUNA_DEPLOYMENT_NAME_PFX = true) :
    alistGet (stepDeployment acc d) (shortenedModelName d.name) =
      some (match alistGet acc (shortenedModelName d.name) with
        | none =>
          ((if d.state ∈ deploymentRunningStates then TunaModelState.Running
            else TunaModelState.Stopped), [deploymentEntryString d])
        | some (st, es) =>
          ((if d.state ∈ deploymentRunningStates then TunaModelState.Running
            else st), es ++ [deploymentEntryString d])) := by
  by_cases hr : d.state ∈ deploymentRunningStates
  · rcases hget : alistGet acc (shortenedModelName d.name) with _ | ⟨st, es⟩ <;>
      simp [stepDeployment, hc, hr, hget, alistGet_alistSet_self]
  · rcases hget : alistGet acc (shortenedModelName d.name) with _ | ⟨st, es⟩ <;>
      simp [stepDeployment, hc, hr, hget, alistGet_alistSet_self]

theorem build_map_charact (ds : List LeptonDeployment) (k : Str) :
    alistGet (_build_shortened_model_name_deployment_map ds) k =
      if specMatchingDeployments ds k = [] then none
      else some (specAggState ds k,
        (specMatchingDeployments ds k).map deploymentEntryString) := by
  induction ds using List.reverseRecOn with
  | nil =>
    simp [_build_shortened_model_name_deployment_map, specMatchingDeployments,
      alistGet]
  | append_singleton ds d ih =>
    have hstep : _build_shortened_model_name_deployment_map (ds ++ [d]) =
        stepDeployment (_build_shortened_model_name_deployment_map ds) d := by
      simp [_build_shortened_model_name_deployment_map, List.foldl_append]
    rw [hstep]
    by_cases hc : containsStr d.name TUNA_DEPLOYMENT_NAME_PFX = true
    · by_cases hk : shortenedModelName d.name = k
      · subst hk
        rw [alistGet_stepDeployment_self _ _ hc, ih]
        have hmatch : specMatchingDeployments (ds ++ [d]) (shortenedModelName d.name) =
            specMatchingDeployments ds (shortenedModelName d.name) ++ [d] := by
          simp [specMatchingDeployments, List.filter_append, List.filter_cons, hc]
        by_cases hm : specMatchingDeployments ds (shortenedModelName d.name) = []
        · by_cases hr : d.state ∈ deploymentRunningStates <;>
            simp [hm, hmatch, specAggState, hr]
        · by_cases hr : d.state ∈ deploymentRunningStates <;>
            simp [hm, hmatch, specAggState, hr, List.any_append, List.map_append]
      · have hmatch : specMatchingDeployments (ds ++ [d]) k =
            specMatchingDeployments ds k := by
          simp [specMatchingDeployments, List.filter_append, List.filter_cons, hk]
        rw [alistGet_stepDeployment_ne _ _ hk, ih]
        simp [specAggState, hmatch]
    · have hc0 : containsStr d.name TUNA_DEPLOYMENT_NAME_PFX = false := by
        revert hc
        cases containsStr d.name TUNA_DEPLOYMENT_NAME_PFX <;> simp
      have hmatch : specMatchingDeployments (ds ++ [d]) k =
          specMatchingDeployments ds k := by
        simp [specMatchingDeployments, List.filter_append, List.filter_cons, hc0]
      have hstep2 : stepDeployment (_build_shortened_model_name_deployment_map ds) d =
          _build_shortened_model_name_deployment_map ds := by
        simp [stepDeployment, hc0]
      rw [hstep2, ih]
      simp [specAggState, hmatch]

theorem specAggState_running_iff (ds : List LeptonDeployment) (k : Str) :
    specAggState ds k = TunaModelState.Running ↔
      ∃ d ∈ specMatchingDeployments ds k, d.state ∈ deploymentRunningStates := by
  by_cases h : (specMatchingDeployments ds k).any
      (fun d => decide (d.state ∈ deploymentRunningStates)) = true
  · rw [specAggState, if_pos h]
    simp only [List.any_eq_true, decide_eq_true_eq] at h
    exact ⟨fun _ => h, fun _ => rfl⟩
  · rw [specAggState, if_neg h]
    simp only [List.any_eq_true, decide_eq_true_eq] at h
    simp [h]

theorem build_map_state_running_or_stopped {ds : List LeptonDeployment}
    {k : Str} {st : TunaModelState} {es : List Str}
    (h : alistGet (_build_shortened_model_name_deployment_map ds) k = some (st, es)) :
    st = TunaModelState.Running ∨ st = TunaModelState.Stopped := by
  rw [build_map_charact] at h
  by_cases hm : specMatchingDeployments ds k = []
  · rw [if_pos hm] at h
    cases h
  · rw [if_neg hm] at h
    have hst : st = specAggState ds k := by
      cases h
      rfl
    rw [hst, specAggState]
    split
    · exact Or.inl rfl
    · exact Or.inr rfl

theorem models_map_lookup (client : APIClient)
    (h1 : client.storage_check_exists DEFAULT_TUNA_FOLDER = true)
    (h2 : client.storage_check_exists DEFAULT_TUNA_MODEL_PATH = true)
    {m : Str} (hm : m ∈ _get_model_names client) :
    alistGet (_get_models_map client) m =
      some (tunaModelFor client (running_job_set client.jobs)
        (failed_job_set client.jobs)
        (_build_shortened_model_name_deployment_map client.deployments) m) := by
  simp only [_get_models_map, h1, h2, Bool.true_eq_false, if_false]
  exact alistGet_foldl_set_mem _ _ _ hm

theorem models_map_mem (client : APIClient) {p : Str × TunaModel}
    (hp : p ∈ _get_models_map client) :
    ∃ n, p = (n, tunaModelFor client (running_job_set client.jobs)
      (failed_job_set client.jobs)
      (_build_shortened_model_name_deployment_map client.deployments) n) := by
  simp only [_get_models_map] at hp
  by_cases h1 : client.storage_check_exists DEFAULT_TUNA_FOLDER = false
  · rw [if_pos h1] at hp
    cases hp
  · rw [if_neg h1] at hp
    by_cases h2 : client.storage_check_exists DEFAULT_TUNA_MODEL_PATH = false
    · rw [if_pos h2] at hp
      cases hp
    · rw [if_neg h2] at hp
      rcases mem_foldl_set _ _ _ hp with h | ⟨n, _, hpn⟩
      · cases h
      · exact ⟨n, hpn⟩

theorem tunaModelFor_state (client : APIClient) (running failed : List Str)
    (ds : List LeptonDeployment) (m : Str) :
    (tunaModelFor client running failed
        (_build_shortened_model_name_deployment_map ds) m).tuna_model_state ∈
      [TunaModelState.Training, TunaModelState.Ready, TunaModelState.Running,
        TunaModelState.TrainFailed, TunaModelState.Stopped] := by
  simp only [tunaModelFor]
  by_cases hfail : _model_train_completed client m = false ∧
      _generate_job_name m ∉ running
  · rw [if_pos hfail]
    simp
  · rw [if_neg hfail]
    by_cases hrun : _generate_job_name m ∉ running
    · rw [if_pos hrun]
      rcases hget : alistGet (_build_shortened_model_name_deployment_map ds)
          (curShortenModelName m) with _ | ⟨st, es⟩
      · simp [hget]
      · rcases build_map_state_running_or_stopped hget with h | h <;>
          simp [hget, h]
    · rw [if_neg hrun]
      simp

theorem generate_name_fallback (existing : List Str) (model_name rand : Str)
    (h : ∀ j, j < 999 →
      deploymentCandidateName (TUNA_DEPLOYMENT_NAME_PFX ++ model_name) j ∈ existing) :
    _generate_model_deployment_name existing model_name rand =
      (TUNA_DEPLOYMENT_NAME_PFX ++ model_name).take 32 ++ rand := by
  have hnone := findDeploymentName_eq_none (TUNA_DEPLOYMENT_NAME_PFX ++ model_name)
    existing 999 0 (fun j hj => by simpa using h j hj)
  simp [_generate_model_deployment_name, hnone]

theorem fallback_ne_candidate (base_name rand : Str) (counter : Nat)
    (h4 : rand.length = 4) (hnd : '-' ∉ rand) (hc : counter < 999) :
    base_name.take 32 ++ rand ≠ deploymentCandidateName base_name counter := by
  intro heq
  have hrev := congrArg List.reverse heq
  simp only [deploymentCandidateName, List.reverse_append, List.reverse_cons,
    List.append_assoc, List.singleton_append] at hrev
  have hd3 := pyStr_length_le_three counter (by omega)
  have hget := congrArg (fun l => l[(pyStr counter).length]?) hrev
  simp only at hget
  rw [List.getElem?_append_left
      (by rw [List.length_reverse, h4]; omega)] at hget
  rw [List.getElem?_append_right
      (by rw [List.length_reverse])] at hget
  rw [List.length_reverse, Nat.sub_self, List.getElem?_cons_zero] at hget
  have hmem : '-' ∈ rand.reverse := List.getElem?_mem hget
  exact hnd (List.mem_reverse.mp hmem)

theorem shortenedModelName_candidate (model_name : Str) (counter : Nat)
    (hlen : model_name.length ≤ 32 - TUNA_DEPLOYMENT_NAME_PFX.length)
    (hc : counter < 999) :
    shortenedModelName
        (deploymentCandidateName (TUNA_DEPLOYMENT_NAME_PFX ++ model_name) counter) =
      model_name := by
  have hd3 := pyStr_length_le_three counter (by omega)
  have hplen : TUNA_DEPLOYMENT_NAME_PFX.length = 5 := by decide
  have htake : (TUNA_DEPLOYMENT_NAME_PFX ++ model_name).take
      (36 - ((pyStr counter).length + 1)) = TUNA_DEPLOYMENT_NAME_PFX ++ model_name := by
    apply List.take_of_length_le
    rw [List.length_append, hplen]
    omega
  rw [shortenedModelName, deploymentCandidateName,
    takeBeforeLastDash_append _ _ (dash_not_mem_pyStr counter), htake,
    List.drop_left]

/-- Claim C1 (counterexample): for the 28-character model name `modelName28`,
the deployment name produced by `_generate_model_deployment_name` on an empty
existing set yields a shortened key (extracted as in the deployment-index
construction) that differs from the aggregator-side shortened form, so the
aggregator's lookup would miss this deployment. -/
theorem claim_C1_counterexample :
    shortenedModelName
        (_generate_model_deployment_name [] modelName28 randAAAA) ≠
      curShortenModelName modelName28 := by decide

/-- Claim C1 (amended): shortening is consistent for every model name of
length at most 32 minus the deployment-name preamble length: whenever the
deterministic counter path produces the deployment name, the shortened key
extracted from that name when building the deployment index equals the
shortened form of the model name computed in the aggregator's lookup. -/
theorem claim_C1 (existing : List Str) (model_name rand : Str)
    (hlen : model_name.length ≤ 32 - TUNA_DEPLOYMENT_NAME_PFX.length)
    (hsome : (findDeploymentName (TUNA_DEPLOYMENT_NAME_PFX ++ model_name)
        existing 999 0).isSome = true) :
    shortenedModelName (_generate_model_deployment_name existing model_name rand) =
      curShortenModelName model_name := by
  obtain ⟨n, hn⟩ := Option.isSome_iff_exists.mp hsome
  have hgen : _generate_model_deployment_name existing model_name rand = n := by
    simp [_generate_model_deployment_name, hn]
  obtain ⟨c, _, hlt, hcand, _⟩ :=
    findDeploymentName_eq_some _ existing 999 0 hn
  have hcur : curShortenModelName model_name = model_name :=
    List.take_of_length_le hlen
  rw [hgen, hcand, shortenedModelName_candidate model_name c hlen (by omega), hcur]

/-- Claim C1 witness: concrete instance at model `alpha` with an empty
existing-name set. -/
theorem claim_C1_witness :
    ("alpha".toList.length ≤ 32 - TUNA_DEPLOYMENT_NAME_PFX.length) ∧
    ((findDeploymentName (TUNA_DEPLOYMENT_NAME_PFX ++ "alpha".toList)
        [] 999 0).isSome = true) ∧
    shortenedModelName (_generate_model_deployment_name [] "alpha".toList randAAAA) =
      curShortenModelName "alpha".toList :=
  ⟨by decide, by decide, claim_C1 [] "alpha".toList randAAAA (by decide) (by decide)⟩

/-- Claim C2 (counterexample): an existing-name set that covers all 999
deterministic candidates but also contains the would-be fallback name makes
`_generate_model_deployment_name` return a name that IS in the existing set,
because the fallback path performs no membership check. -/
theorem claim_C2_counterexample :
    (∀ cand ∈ detCandidates (TUNA_DEPLOYMENT_NAME_PFX ++ modelDelta),
        cand ∈ badExistingSet) ∧
    _generate_model_deployment_name badExistingSet modelDelta randAAAA
      ∈ badExistingSet := by
  constructor
  · intro cand hcand
    exact List.mem_append_left _ hcand
  · have hgen := generate_name_fallback badExistingSet modelDelta randAAAA
      (fun j hj =>
        List.mem_append_left _ (List.mem_map.mpr ⟨j, List.mem_range.mpr hj, rfl⟩))
    rw [hgen]
    exact List.mem_append_right _ (List.mem_singleton.mpr rfl)

/-- Claim C2 (amended): when the existing-name set consists exactly of the 999
deterministic candidates, the fallback produces the preamble plus model name
truncated to 32 characters plus the 4 injected alphanumeric characters; the
result is at most 36 characters long and is not in that set, for every model
name and every choice of the injected randomness. -/
theorem claim_C2 (model_name rand : Str) (h4 : rand.length = 4)
    (halnum : ∀ ch ∈ rand, ch.isAlphanum = true) :
    (_generate_model_deployment_name
        (detCandidates (TUNA_DEPLOYMENT_NAME_PFX ++ model_name))
        model_name rand).length ≤ 36 ∧
    _generate_model_deployment_name
        (detCandidates (TUNA_DEPLOYMENT_NAME_PFX ++ model_name)) model_name rand
      ∉ detCandidates (TUNA_DEPLOYMENT_NAME_PFX ++ model_name) := by
  have hnd : '-' ∉ rand := fun hmem => absurd (halnum '-' hmem) (by decide)
  have hgen := generate_name_fallback
    (detCandidates (TUNA_DEPLOYMENT_NAME_PFX ++ model_name)) model_name rand
    (fun j hj => List.mem_map.mpr ⟨j, List.mem_range.mpr hj, rfl⟩)
  rw [hgen]
  constructor
  · simp only [List.length_append, List.length_take, h4]
    have := Nat.min_le_left 32 (TUNA_DEPLOYMENT_NAME_PFX ++ model_name).length
    omega
  · intro hmem
    obtain ⟨j, hj, hcand⟩ := List.mem_map.mp hmem
    exact fallback_ne_candidate _ rand j h4 hnd (List.mem_range.mp hj) hcand.symm

/-- Claim C2 witness: concrete instance at model `delta` with the exact
candidate set and randomness `aaaa`. -/
theorem claim_C2_witness :
    randAAAA.length = 4 ∧
    ((_generate_model_deployment_name
        (detCandidates (TUNA_DEPLOYMENT_NAME_PFX ++ modelDelta))
        modelDelta randAAAA).length ≤ 36 ∧
      _generate_model_deployment_name
        (detCandidates (TUNA_DEPLOYMENT_NAME_PFX ++ modelDelta)) modelDelta randAAAA
        ∉ detCandidates (TUNA_DEPLOYMENT_NAME_PFX ++ modelDelta)) :=
  ⟨by decide, claim_C2 modelDelta randAAAA (by decide) (by decide)⟩

/-- Claim C3: for every inventory snapshot and every model directory whose
training-completed flag is false and whose derived job name is not in the
running-job set, the aggregated record has state TrainFailed regardless of
the deployment inventory, and its job_name is the derived job name exactly
when that name is in the failed-job set. -/
theorem claim_C3 (client : APIClient) (model_name : Str)
    (h1 : client.storage_check_exists DEFAULT_TUNA_FOLDER = true)
    (h2 : client.storage_check_exists DEFAULT_TUNA_MODEL_PATH = true)
    (hm : model_name ∈ _get_model_names client)
    (hcomp : _model_train_completed client model_name = false)
    (hrun : _generate_job_name model_name ∉ running_job_set client.jobs) :
    alistGet (_get_models_map client) model_name =
      some { folder_name := model_name
             tuna_model_state := TunaModelState.TrainFailed
             deployments := none
             job_name :=
               if _generate_job_name model_name ∈ failed_job_set client.jobs
               then some (_generate_job_name model_name) else none } := by
  rw [models_map_lookup client h1 h2 hm]
  simp [tunaModelFor, hcomp, hrun]

/-- Claim C3 witness: concrete instance for model `alpha` under `clientA`
(empty output directory, no jobs, no deployments). -/
theorem claim_C3_witness :
    (clientA.storage_check_exists DEFAULT_TUNA_FOLDER = true ∧
      "alpha".toList ∈ _get_model_names clientA ∧
      _model_train_completed clientA "alpha".toList = false ∧
      _generate_job_name "alpha".toList ∉ running_job_set clientA.jobs) ∧
    alistGet (_get_models_map clientA) "alpha".toList =
      some { folder_name := "alpha".toList
             tuna_model_state := TunaModelState.TrainFailed
             deployments := none
             job_name :=
               if _generate_job_name "alpha".toList ∈ failed_job_set clientA.jobs
               then some (_generate_job_name "alpha".toList) else none } :=
  ⟨⟨by decide, by decide, by decide, by decide⟩,
    claim_C3 clientA "alpha".toList (by decide) (by decide) (by decide) (by decide)
      (by decide)⟩

/-- Claim C4: for every model whose derived job name is in the running-job
set, the aggregated record has state Training and job_name equal to the
deterministic job name (job-name preamble concatenated with the model name),
independent of the deployment inventory and the training-completed flag. -/
theorem claim_C4 (client : APIClient) (model_name : Str)
    (h1 : client.storage_check_exists DEFAULT_TUNA_FOLDER = true)
    (h2 : client.storage_check_exists DEFAULT_TUNA_MODEL_PATH = true)
    (hm : model_name ∈ _get_model_names client)
    (hrun : _generate_job_name model_name ∈ running_job_set client.jobs) :
    alistGet (_get_models_map client) model_name =
      some { folder_name := model_name
             tuna_model_state := TunaModelState.Training
             deployments := none
             job_name := some (TUNA_TRAIN_JOB_NAME_PFX ++ model_name) } := by
  rw [models_map_lookup client h1 h2 hm]
  simp only [_generate_job_name] at hrun
  simp [tunaModelFor, _generate_job_name, hrun]

/-- Claim C4 witness: model `alpha` with running job `train-job-alpha` under
`clientB`. -/
theorem claim_C4_witness :
    ("alpha".toList ∈ _get_model_names clientB ∧
      _generate_job_name "alpha".toList ∈ running_job_set clientB.jobs) ∧
    alistGet (_get_models_map clientB) "alpha".toList =
      some { folder_name := "alpha".toList
             tuna_model_state := TunaModelState.Training
             deployments := none
             job_name := some (TUNA_TRAIN_JOB_NAME_PFX ++ "alpha".toList) } :=
  ⟨⟨by decide, by decide⟩,
    claim_C4 clientB "alpha".toList (by decide) (by decide) (by decide) (by decide)⟩

/-- Claim C5: in the deployment index built from the inventory, every
shortened key with at least one matching deployment maps to the spec-side
aggregate state — Running iff at least one matching deployment is Ready,
Starting or Updating, and Stopped otherwise — together with the
`"<name> (<status>)"` strings of the matching deployments in inventory
order. -/
theorem claim_C5 (deployments : List LeptonDeployment) (k : Str)
    (h : specMatchingDeployments deployments k ≠ []) :
    alistGet (_build_shortened_model_name_deployment_map deployments) k =
      some (specAggState deployments k,
        (specMatchingDeployments deployments k).map deploymentEntryString) ∧
    (specAggState deployments k = TunaModelState.Running ↔
      ∃ d ∈ specMatchingDeployments deployments k,
        d.state ∈ deploymentRunningStates) ∧
    (specAggState deployments k ≠ TunaModelState.Running →
      specAggState deployments k = TunaModelState.Stopped) := by
  refine ⟨?_, specAggState_running_iff deployments k, ?_⟩
  · rw [build_map_charact, if_neg h]
  · intro hne
    by_cases hb : (specMatchingDeployments deployments k).any
        (fun d => decide (d.state ∈ deploymentRunningStates)) = true
    · exact absurd (by rw [specAggState, if_pos hb]) hne
    · rw [specAggState, if_neg hb]

/-- Claim C5 witness: one Ready deployment `tuna-alpha-0` under key `alpha`. -/
theorem claim_C5_witness :
    (specMatchingDeployments clientNoFolder.deployments "alpha".toList ≠ []) ∧
    (alistGet (_build_shortened_model_name_deployment_map clientNoFolder.deployments)
        "alpha".toList =
      some (specAggState clientNoFolder.deployments "alpha".toList,
        (specMatchingDeployments clientNoFolder.deployments "alpha".toList).map
          deploymentEntryString) ∧
      (specAggState clientNoFolder.deployments "alpha".toList =
          TunaModelState.Running ↔
        ∃ d ∈ specMatchingDeployments clientNoFolder.deployments "alpha".toList,
          d.state ∈ deploymentRunningStates) ∧
      (specAggState clientNoFolder.deployments "alpha".toList ≠
          TunaModelState.Running →
        specAggState clientNoFolder.deployments "alpha".toList =
          TunaModelState.Stopped)) :=
  ⟨by decide, claim_C5 clientNoFolder.deployments "alpha".toList (by decide)⟩

/-- Claim C6: `_generate_model_deployment_name` never returns a string longer
than 36 characters, for every model name of length 1 to 200, every
existing-name set of size at most 999 and every injected 4-character
randomness; the truncation index 36 - (len(str(counter)) + 1) shrinks as the
counter's digit count grows, keeping every counter candidate within the
limit. -/
theorem claim_C6 (existing : List Str) (model_name rand : Str)
    (h1 : 1 ≤ model_name.length) (h2 : model_name.length ≤ 200)
    (h3 : existing.length ≤ 999) (h4 : rand.length = 4) :
    (_generate_model_deployment_name existing model_name rand).length ≤ 36 := by
  rcases hfind : findDeploymentName (TUNA_DEPLOYMENT_NAME_PFX ++ model_name)
      existing 999 0 with _ | n
  · simp only [_generate_model_deployment_name, hfind]
    simp only [List.length_append, List.length_take, h4]
    have := Nat.min_le_left 32 (TUNA_DEPLOYMENT_NAME_PFX ++ model_name).length
    omega
  · obtain ⟨c, _, hlt, hcand, _⟩ :=
      findDeploymentName_eq_some _ existing 999 0 hfind
    have hle := length_deploymentCandidateName_le
      (TUNA_DEPLOYMENT_NAME_PFX ++ model_name) c (by omega)
    simp only [_generate_model_deployment_name, hfind]
    rw [hcand]
    exact hle

/-- Claim C6 witness: concrete instance at model `alpha`, empty existing set,
randomness `aaaa`. -/
theorem claim_C6_witness :
    (1 ≤ "alpha".toList.length ∧ "alpha".toList.length ≤ 200 ∧
      ([] : List Str).length ≤ 999 ∧ randAAAA.length = 4) ∧
    (_generate_model_deployment_name [] "alpha".toList randAAAA).length ≤ 36 :=
  ⟨⟨by decide, by decide, by decide, by decide⟩,
    claim_C6 [] "alpha".toList randAAAA (by decide) (by decide) (by decide)
      (by decide)⟩

/-- Claim C7: when the tuna root folder or the models root path does not exist
in storage, `_get_models_map` returns the empty mapping rather than an error,
for every job and deployment inventory. -/
theorem claim_C7 (client : APIClient)
    (h : client.storage_check_exists DEFAULT_TUNA_FOLDER = false ∨
      client.storage_check_exists DEFAULT_TUNA_MODEL_PATH = false) :
    _get_models_map client = [] := by
  rcases h with h | h
  · simp [_get_models_map, h]
  · simp [_get_models_map, h]

/-- Claim C7 witness: a snapshot with no tuna root folder but nonempty job and
deployment inventories. -/
theorem claim_C7_witness :
    (clientNoFolder.storage_check_exists DEFAULT_TUNA_FOLDER = false) ∧
    _get_models_map clientNoFolder = [] :=
  ⟨by decide, claim_C7 clientNoFolder (Or.inl (by decide))⟩

/-- Claim C8: `_generate_model_deployment_name` is deterministic whenever the
exhaustion fallback is not reached — for a fixed existing-name set and model
name, the result does not depend on the injected randomness, so two calls with
identical inputs return identical output. -/
theorem claim_C8 (existing : List Str) (model_name rand1 rand2 : Str)
    (h : (findDeploymentName (TUNA_DEPLOYMENT_NAME_PFX ++ model_name)
        existing 999 0).isSome = true) :
    _generate_model_deployment_name existing model_name rand1 =
      _generate_model_deployment_name existing model_name rand2 := by
  obtain ⟨n, hn⟩ := Option.isSome_iff_exists.mp h
  simp [_generate_model_deployment_name, hn]

/-- Claim C8 witness: model `alpha`, empty existing set, two different random
draws. -/
theorem claim_C8_witness :
    ((findDeploymentName (TUNA_DEPLOYMENT_NAME_PFX ++ "alpha".toList)
        [] 999 0).isSome = true) ∧
    _generate_model_deployment_name [] "alpha".toList randAAAA =
      _generate_model_deployment_name [] "alpha".toList "bbbb".toList :=
  ⟨by decide, claim_C8 [] "alpha".toList randAAAA "bbbb".toList (by decide)⟩

/-- Claim C9: every record produced by `_get_models_map` has a state among
Training, Ready, Running, TrainFailed and Stopped; the Unknown state of the
data model is never assigned, for any combination of directory listing, job
inventory and deployment inventory. -/
theorem claim_C9 (client : APIClient) (p : Str × TunaModel)
    (hp : p ∈ _get_models_map client) :
    p.2.tuna_model_state ∈
      [TunaModelState.Training, TunaModelState.Ready, TunaModelState.Running,
        TunaModelState.TrainFailed, TunaModelState.Stopped] ∧
    p.2.tuna_model_state ≠ TunaModelState.Unknown := by
  obtain ⟨n, hpn⟩ := models_map_mem client hp
  subst hpn
  refine ⟨tunaModelFor_state client _ _ _ n, ?_⟩
  intro habs
  have h := tunaModelFor_state client (running_job_set client.jobs)
    (failed_job_set client.jobs) client.deployments n
  rw [habs] at h
  exact absurd h (by decide)

/-- Claim C9 witness: the Training record for `alpha` under `clientB`. -/
theorem claim_C9_witness :
    (recordAlphaTraining ∈ _get_models_map clientB) ∧
    (recordAlphaTraining.2.tuna_model_state ∈
      [TunaModelState.Training, TunaModelState.Ready, TunaModelState.Running,
        TunaModelState.TrainFailed, TunaModelState.Stopped] ∧
    recordAlphaTraining.2.tuna_model_state ≠ TunaModelState.Unknown) :=
  ⟨by decide, claim_C9 clientB recordAlphaTraining (by decide)⟩

/-- Claim C10: a model directory that exists but contains zero entries is not
skipped or marked Unknown — when its derived job name is in neither the
running nor the failed job set, aggregation returns state TrainFailed with
job_name unset, because the completion check is false for an empty
directory. -/
theorem claim_C10 (client : APIClient) (model_name : Str)
    (h1 : client.storage_check_exists DEFAULT_TUNA_FOLDER = true)
    (h2 : client.storage_check_exists DEFAULT_TUNA_MODEL_PATH = true)
    (hm : model_name ∈ _get_model_names client)
    (hempty : client.storage_get_dir
        (DEFAULT_TUNA_MODEL_PATH ++ "/".toList ++ model_name) = [])
    (hrun : _generate_job_name model_name ∉ running_job_set client.jobs)
    (hfail : _generate_job_name model_name ∉ failed_job_set client.jobs) :
    alistGet (_get_models_map client) model_name =
      some { folder_name := model_name
             tuna_model_state := TunaModelState.TrainFailed
             deployments := none
             job_name := none } := by
  have hempty2 : client.storage_get_dir
      (DEFAULT_TUNA_MODEL_PATH ++ '/' :: model_name) = [] := by
    simpa using hempty
  have hcomp : _model_train_completed client model_name = false := by
    simp [_model_train_completed, hempty2]
  rw [models_map_lookup client h1 h2 hm]
  simp [tunaModelFor, hcomp, hrun, hfail]

/-- Claim C10 witness: model `alpha` under `clientA`, whose output directory
listing is empty and whose job is in neither job set. -/
theorem claim_C10_witness :
    ("alpha".toList ∈ _get_model_names clientA ∧
      clientA.storage_get_dir
        (DEFAULT_TUNA_MODEL_PATH ++ "/".toList ++ "alpha".toList) = [] ∧
      _generate_job_name "alpha".toList ∉ running_job_set clientA.jobs ∧
      _generate_job_name "alpha".toList ∉ failed_job_set clientA.jobs) ∧
    alistGet (_get_models_map clientA) "alpha".toList =
      some { folder_name := "alpha".toList
             tuna_model_state := TunaModelState.TrainFailed
             deployments := none
             job_name := none } :=
  ⟨⟨by decide, by decide, by decide, by decide⟩,
    claim_C10 clientA "alpha".toList (by decide) (by decide) (by decide) (by decide)
      (by decide) (by decide)⟩
